import Mathlib

/-!
# Verification of the BackendD3D quad/atlas core

Shallow embedding of `src/renderer/atlas/BackendD3D.h`: the `ShadingType`
enumeration, the `QuadInstance` GPU record layout, the glyph-atlas cache
entries and their operators, the skyline rectangle packer feeding the atlas,
the quad instance buffer, the atlas-full retry driver and the cursor
rectangle pass.  Structures and operators declared in the header are
translated directly; behaviour that the header only declares (the bodies
live in `BackendD3D.cpp`, which is not part of the given source tree) is
modelled from the specification and carries a `Modelled from the spec:`
doc comment.
-/

namespace BackendD3D

open scoped List

/-- `LineRendition` of a row, the second component of `AtlasFontFaceKey`
(normal, double-width, double-height top/bottom half). -/
inductive LineRendition where
  | singleWidth
  | doubleWidth
  | doubleHeightTop
  | doubleHeightBottom
deriving DecidableEq

/-- Numeric value of `ShadingType::Default` (`enum class ShadingType : u32`). -/
def ShadingType.Default : Nat := 0

/-- Numeric value of `ShadingType::Background`. -/
def ShadingType.Background : Nat := 0

/-- Numeric value of `ShadingType::TextGrayscale`. -/
def ShadingType.TextGrayscale : Nat := 1

/-- Numeric value of `ShadingType::TextClearType`. -/
def ShadingType.TextClearType : Nat := 2

/-- Numeric value of `ShadingType::TextPassthrough`. -/
def ShadingType.TextPassthrough : Nat := 3

/-- Numeric value of `ShadingType::DottedLine`. -/
def ShadingType.DottedLine : Nat := 4

/-- Numeric value of `ShadingType::DottedLineWide`. -/
def ShadingType.DottedLineWide : Nat := 5

/-- Numeric value of `ShadingType::SolidLine`. -/
def ShadingType.SolidLine : Nat := 6

/-- Numeric value of `ShadingType::Cursor`. -/
def ShadingType.Cursor : Nat := 7

/-- Numeric value of `ShadingType::Selection`. -/
def ShadingType.Selection : Nat := 8

/-- `ShadingType::TextDrawingFirst = TextGrayscale`. -/
def ShadingType.TextDrawingFirst : Nat := ShadingType.TextGrayscale

/-- `ShadingType::TextDrawingLast = SolidLine`. -/
def ShadingType.TextDrawingLast : Nat := ShadingType.SolidLine

/-- The block of `ShadingType` values that the header keeps together for the
`TextDrawingFirst`/`TextDrawingLast` range check. -/
def textDrawingValues : List Nat :=
  [ShadingType.TextGrayscale, ShadingType.TextClearType, ShadingType.TextPassthrough,
   ShadingType.DottedLine, ShadingType.DottedLineWide, ShadingType.SolidLine]

/-- The range test the header comment describes: an instance is a "text
drawing primitive" iff its shading type lies in
`[TextDrawingFirst, TextDrawingLast]`. -/
def isTextDrawingPrimitive (v : Nat) : Bool :=
  decide (ShadingType.TextDrawingFirst ≤ v) && decide (v ≤ ShadingType.TextDrawingLast)

/-- Header comment on `SolidLine`: "All items starting here will be drawing
as a solid RGBA color" — composited as a flat color, not sampled from the
atlas. -/
def drawsAsSolidColor (v : Nat) : Bool :=
  decide (ShadingType.SolidLine ≤ v)

/-- One scalar field group of a C++ struct: `count` lanes of `scalarSize`
bytes each, alignment forced by `alignas`, and whether the lanes are signed. -/
structure CScalarField where
  count : Nat
  scalarSize : Nat
  align : Nat
  signed : Bool
deriving DecidableEq

/-- Total byte size of a field group. -/
def CScalarField.byteSize (f : CScalarField) : Nat := f.count * f.scalarSize

/-- Round `off` up to the next multiple of `a` (C struct layout rule). -/
def alignUp (off a : Nat) : Nat := ((off + a - 1) / a) * a

/-- Byte offset of every field of a C++ struct laid out in declaration
order starting from offset `off`. -/
def fieldOffsets : Nat → List CScalarField → List Nat
  | _, [] => []
  | off, f :: fs => alignUp off f.align :: fieldOffsets (alignUp off f.align + f.byteSize) fs

/-- Offset one past the last field. -/
def structEnd : Nat → List CScalarField → Nat
  | off, [] => off
  | off, f :: fs => structEnd (alignUp off f.align + f.byteSize) fs

/-- Alignment of the whole struct: maximum field alignment. -/
def structAlignment (fs : List CScalarField) : Nat :=
  fs.foldl (fun m f => max m f.align) 1

/-- `sizeof` of the struct: end offset rounded up to the struct alignment. -/
def structSize (fs : List CScalarField) : Nat :=
  alignUp (structEnd 0 fs) (structAlignment fs)

/-- `QuadInstance` from the header: `{shadingType : ShadingType (u32);
position : i16x2; size : u16x2; texcoord : u16x2; color : u32}`, every field
`alignas(u32)`.  `position` is signed because a quad may clip outside the
viewport. -/
structure QuadInstance where
  shadingType : Nat
  position : Int × Int
  size : Nat × Nat
  texcoord : Nat × Nat
  color : Nat
deriving DecidableEq

/-- The field list of `QuadInstance` exactly as declared in the header:
`alignas(u32) ShadingType shadingType; alignas(u32) i16x2 position;
alignas(u32) u16x2 size; alignas(u32) u16x2 texcoord; alignas(u32) u32 color`. -/
def QuadInstance.fields : List CScalarField :=
  [⟨1, 4, 4, false⟩,
   ⟨2, 2, 4, true⟩,
   ⟨2, 2, 4, false⟩,
   ⟨2, 2, 4, false⟩,
   ⟨1, 4, 4, false⟩]

/-- `AtlasGlyphEntryData`: placement and classification of one cached glyph
(`shadingType : u16; overlapSplit : u16; offset : i16x2; size : u16x2;
texcoord : u16x2`). -/
structure AtlasGlyphEntryData where
  shadingType : Nat
  overlapSplit : Nat
  offset : Int × Int
  size : Nat × Nat
  texcoord : Nat × Nat
deriving DecidableEq

/-- `AtlasGlyphEntry`: one slot of a face's glyph cache
(`glyphIndex : u16; _occupied : u16; data : AtlasGlyphEntryData`). -/
structure AtlasGlyphEntry where
  glyphIndex : Nat
  _occupied : Nat
  data : AtlasGlyphEntryData
deriving DecidableEq

/-- `AtlasGlyphEntry::operator bool`: `_occupied != 0`. -/
def AtlasGlyphEntry.occupiedB (e : AtlasGlyphEntry) : Bool :=
  e._occupied != 0

/-- `AtlasGlyphEntry::operator==(u16 key)`: `glyphIndex == key`. -/
def AtlasGlyphEntry.eqKey (e : AtlasGlyphEntry) (key : Nat) : Bool :=
  e.glyphIndex == key

/-- `AtlasGlyphEntry::operator=(u16 key)`: sets `glyphIndex = key` and
`_occupied = 1`, leaving `data` untouched. -/
def AtlasGlyphEntry.assignKey (e : AtlasGlyphEntry) (key : Nat) : AtlasGlyphEntry :=
  { e with glyphIndex := key, _occupied := 1 }

/-- `AtlasFontFaceKey`: the lookup key `{IDWriteFontFace2* fontFace;
LineRendition lineRendition}`.  The pointer is modelled as an abstract
identity (`Nat`): the header's BODGY comment documents that the pointer
value itself identifies the font face variant. -/
structure AtlasFontFaceKey where
  fontFace : Nat
  lineRendition : LineRendition
deriving DecidableEq

/-- `AtlasFontFaceEntryInner`: the boxed per-face state holding the stored
`fontFace` pointer, the `lineRendition`, and the `glyphs`/`boxGlyphs`
caches. -/
structure AtlasFontFaceEntryInner where
  fontFace : Nat
  lineRendition : LineRendition
  glyphs : List AtlasGlyphEntry
  boxGlyphs : List Nat
deriving DecidableEq

/-- `AtlasFontFaceEntry::operator==(const AtlasFontFaceKey&)` on the inner
state: `inner->fontFace.get() == key.fontFace && inner->lineRendition ==
key.lineRendition` — pointer equality, never structural equality of the
face's contents. -/
def AtlasFontFaceEntryInner.matchesKey (i : AtlasFontFaceEntryInner) (k : AtlasFontFaceKey) : Bool :=
  (i.fontFace == k.fontFace) && decide (i.lineRendition = k.lineRendition)

/-- `AtlasFontFaceEntry`: a slot of `_glyphAtlasMap`; `inner` is a
`std::unique_ptr`, empty (`none`) in an unoccupied slot. -/
structure AtlasFontFaceEntry where
  inner : Option AtlasFontFaceEntryInner
deriving DecidableEq

/-- `AtlasFontFaceEntry::operator==` lifted to the slot: an empty slot
matches no key, an occupied one compares its inner state. -/
def AtlasFontFaceEntry.matchesKey (e : AtlasFontFaceEntry) (k : AtlasFontFaceKey) : Bool :=
  match e.inner with
  | none => false
  | some i => i.matchesKey k

/-- `AtlasFontFaceEntry::operator=(const AtlasFontFaceKey&)`: allocates a
fresh inner state holding the key's pointer and rendition with empty glyph
caches. -/
def AtlasFontFaceEntry.assignKey (k : AtlasFontFaceKey) : AtlasFontFaceEntry :=
  ⟨some ⟨k.fontFace, k.lineRendition, [], []⟩⟩

/-- A rectangle placed in the atlas, in atlas texel coordinates. -/
structure PackRect where
  x : Nat
  y : Nat
  w : Nat
  h : Nat
deriving DecidableEq

/-- The rectangle packer state behind `_rectPacker`/`_rectPackerData`:
one packed-height entry per atlas column (the skyline) plus the atlas
height.  Modelled from the spec: a skyline bin-packing allocator over a
fixed-width atlas. -/
structure RectPacker where
  heights : List Nat
  atlasHeight : Nat
deriving DecidableEq

/-- `stbrp_init_target`: fresh packer for an atlas of the given width and
height, with an empty (all-zero) skyline. -/
def stbrpInit (width height : Nat) : RectPacker :=
  ⟨List.replicate width 0, height⟩

/-- Maximum skyline height over the `w` columns starting at column `x`. -/
def maxHeights : List Nat → Nat → Nat → Nat
  | _, _, 0 => 0
  | [], _, _ => 0
  | c :: t, 0, w + 1 => max c (maxHeights t 0 w)
  | _ :: t, x + 1, w => maxHeights t x w

/-- Bottom-left placement heuristic: among all columns `x` where a width-`w`
rectangle fits horizontally, pick the first one minimising the resulting
bottom edge `maxHeights heights x w`; `none` when the rectangle is wider
than the atlas. -/
def bestPosition (hs : List Nat) (w : Nat) : Option Nat :=
  (List.range (hs.length + 1 - w)).foldl
    (fun best x =>
      match best with
      | none => some x
      | some b => if maxHeights hs x w < maxHeights hs b w then some x else best)
    none

/-- Raise the skyline to height `v` over the `w` columns starting at `x`. -/
def raiseColumns : List Nat → Nat → Nat → Nat → List Nat
  | [], _, _, _ => []
  | c :: t, 0, 0, _ => c :: t
  | _ :: t, 0, w + 1, v => v :: raiseColumns t 0 w v
  | c :: t, x + 1, w, v => c :: raiseColumns t x w v

/-- Modelled from the spec: `stbrp_pack_rects` for a single rectangle —
`tryPack(width, height) -> placement | failure`.  The rectangle is placed
bottom-left on the skyline; packing fails when it does not fit in the
current atlas extent.  Placements are never moved once issued. -/
def tryPack (st : RectPacker) (w h : Nat) : Option (PackRect × RectPacker) :=
  match bestPosition st.heights w with
  | none => none
  | some x =>
    let y := maxHeights st.heights x w
    if y + h ≤ st.atlasHeight then
      some (⟨x, y, w, h⟩, ⟨raiseColumns st.heights x w (y + h), st.atlasHeight⟩)
    else
      none

/-- Membership of an atlas texel in a placed rectangle. -/
def inRect (r : PackRect) (px py : Nat) : Prop :=
  r.x ≤ px ∧ px < r.x + r.w ∧ r.y ≤ py ∧ py < r.y + r.h

/-- Two rectangles are non-overlapping when no texel lies in both. -/
def rectsDisjoint (a b : PackRect) : Prop :=
  ∀ px py, ¬(inRect a px py ∧ inRect b px py)

/-- A rectangle lies fully within an atlas of the given extent. -/
def rectInBounds (width height : Nat) (r : PackRect) : Prop :=
  r.x + r.w ≤ width ∧ r.y + r.h ≤ height

/-- What the external glyph rasterizer reports for one glyph: shading
classification, placement offset and bitmap size (spec §6). -/
structure RasterResult where
  shadingType : Nat
  offset : Int × Int
  size : Nat × Nat
deriving DecidableEq

/-- The error taxonomy of the atlas path (spec §7): `atlasFull` is the
retryable packer failure, `atlasTooSmall` the fatal escalation. -/
inductive AtlasError where
  | atlasFull
  | atlasTooSmall
deriving DecidableEq

/-- The glyph-atlas cache state: the occupied slots of `_glyphAtlasMap`
(in probe order) plus the rectangle packer. -/
structure GlyphAtlasState where
  glyphAtlasMap : List AtlasFontFaceEntryInner
  rectPacker : RectPacker
deriving DecidableEq

/-- Fresh cache over an empty atlas of the given extent. -/
def initGlyphAtlasState (width height : Nat) : GlyphAtlasState :=
  ⟨[], stbrpInit width height⟩

/-- `_resetGlyphAtlas`: destroys every cached entry atomically and
re-initialises the packer over the same atlas extent. -/
def resetGlyphAtlas (s : GlyphAtlasState) : GlyphAtlasState :=
  ⟨[], stbrpInit s.rectPacker.heights.length s.rectPacker.atlasHeight⟩

/-- Cache lookup in the face map: find the first face entry matching the
key, then the occupied glyph slot whose `glyphIndex` equals `gi`. -/
def lookupGlyphInMap (faces : List AtlasFontFaceEntryInner) (k : AtlasFontFaceKey) (gi : Nat) :
    Option AtlasGlyphEntryData :=
  (faces.find? (fun f => f.matchesKey k)).bind
    (fun face => (face.glyphs.find? (fun g => g.eqKey gi && g.occupiedB)).map
      (fun g => g.data))

/-- Cache lookup on the whole state. -/
def lookupGlyph (s : GlyphAtlasState) (k : AtlasFontFaceKey) (gi : Nat) : Option AtlasGlyphEntryData :=
  lookupGlyphInMap s.glyphAtlasMap k gi

/-- Lazily create the face entry for `k` (the cold path of `resolve`):
append a fresh inner state when no slot matches the key. -/
def ensureFace (faces : List AtlasFontFaceEntryInner) (k : AtlasFontFaceKey) : List AtlasFontFaceEntryInner :=
  if faces.any (fun f => f.matchesKey k) then faces
  else faces ++ [⟨k.fontFace, k.lineRendition, [], []⟩]

/-- Append a freshly drawn glyph entry to the glyph cache of the first face
entry matching `k`. -/
def addGlyphToFace : List AtlasFontFaceEntryInner → AtlasFontFaceKey → AtlasGlyphEntry → List AtlasFontFaceEntryInner
  | [], _, _ => []
  | f :: fs, k, e =>
    if f.matchesKey k then { f with glyphs := f.glyphs ++ [e] } :: fs
    else f :: addGlyphToFace fs k e

/-- Modelled from the spec: `resolve(fontFaceKey, glyphIndex) ->
GlyphEntry` of `GlyphAtlasCache` (the body of `_drawGlyph` lives in
`BackendD3D.cpp`).  On a hit the cached data is returned unchanged; on a
miss the glyph is rasterized via the external collaborator `raster`,
placed through the rectangle packer, and the new entry is recorded; a
packer failure propagates the retryable `atlasFull` condition to the
caller instead of looping internally. -/
def resolveGlyph (raster : AtlasFontFaceKey → Nat → RasterResult) (s : GlyphAtlasState)
    (k : AtlasFontFaceKey) (gi : Nat) :
    Except AtlasError (AtlasGlyphEntryData × GlyphAtlasState) :=
  match lookupGlyph s k gi with
  | some d => .ok (d, s)
  | none =>
    let r := raster k gi
    match tryPack s.rectPacker r.size.1 r.size.2 with
    | none => .error .atlasFull
    | some (pr, packer) =>
      let d : AtlasGlyphEntryData :=
        ⟨r.shadingType, 0, r.offset, r.size, (pr.x, pr.y)⟩
      let e : AtlasGlyphEntry := ⟨gi, 1, d⟩
      .ok (d, ⟨addGlyphToFace (ensureFace s.glyphAtlasMap k) k e, packer⟩)

/-- Modelled from the spec: `_drawGlyphPrepareRetry` — flush the pending
quads and reset the glyph atlas so the failed resolution can be replayed. -/
def drawGlyphPrepareRetry (s : GlyphAtlasState) : GlyphAtlasState :=
  resetGlyphAtlas s

/-- Modelled from the spec: the Text emitter's handling of a failed glyph
resolution — on `atlasFull`, reset the atlas and replay the resolution
exactly once; a second failure is escalated as the fatal `atlasTooSmall`. -/
def drawGlyphWithRetry (raster : AtlasFontFaceKey → Nat → RasterResult) (s : GlyphAtlasState)
    (k : AtlasFontFaceKey) (gi : Nat) :
    Except AtlasError (AtlasGlyphEntryData × GlyphAtlasState) :=
  match resolveGlyph raster s k gi with
  | .ok r => .ok r
  | .error _ =>
    match resolveGlyph raster (drawGlyphPrepareRetry s) k gi with
    | .ok r => .ok r
    | .error _ => .error .atlasTooSmall

/-- Instrumented variant of `drawGlyphWithRetry` that also counts the
resolution attempts and the atlas resets it performs. -/
def drawGlyphWithRetryCounted (raster : AtlasFontFaceKey → Nat → RasterResult) (s : GlyphAtlasState)
    (k : AtlasFontFaceKey) (gi : Nat) :
    Except AtlasError (AtlasGlyphEntryData × GlyphAtlasState) × Nat × Nat :=
  match resolveGlyph raster s k gi with
  | .ok r => (.ok r, 1, 0)
  | .error _ =>
    match resolveGlyph raster (drawGlyphPrepareRetry s) k gi with
    | .ok r => (.ok r, 2, 1)
    | .error _ => (.error .atlasTooSmall, 2, 1)

/-- The `texcoord`/`size` rectangle recorded in an `AtlasGlyphEntryData`. -/
def entryRect (d : AtlasGlyphEntryData) : PackRect :=
  ⟨d.texcoord.1, d.texcoord.2, d.size.1, d.size.2⟩

/-- The rectangles of the occupied glyph entries of one face. -/
def faceRects (f : AtlasFontFaceEntryInner) : List PackRect :=
  f.glyphs.filterMap
    (fun g => if g._occupied ≠ 0 then some (entryRect g.data) else none)

/-- All rectangles recorded in occupied glyph entries across a face map. -/
def occupiedRectsOfFaces (faces : List AtlasFontFaceEntryInner) : List PackRect :=
  faces.flatMap faceRects

/-- All rectangles recorded in occupied glyph entries across every face of
the cache. -/
def occupiedGlyphRects (s : GlyphAtlasState) : List PackRect :=
  occupiedRectsOfFaces s.glyphAtlasMap

/-- The skyline dominates a rectangle: over the rectangle's column span the
packed height is at least the rectangle's top edge. -/
def packerDominates (st : RectPacker) (r : PackRect) : Prop :=
  ∀ c, r.x ≤ c → c < r.x + r.w → r.y + r.h ≤ st.heights.getD c 0

/-- Packer invariant tying a packer state to the rectangles placed so far:
every placed rectangle fits the atlas extent and sits below the skyline,
and the placed rectangles are pairwise non-overlapping. -/
def PackerInv (st : RectPacker) (placed : List PackRect) : Prop :=
  (∀ r ∈ placed,
      r.x + r.w ≤ st.heights.length ∧ r.y + r.h ≤ st.atlasHeight ∧ packerDominates st r)
  ∧ List.Pairwise rectsDisjoint placed

/-- Run a sequence of glyph resolutions; a failed placement leaves the
state unchanged (the glyph is simply not placed). -/
def resolveAll (raster : AtlasFontFaceKey → Nat → RasterResult) :
    GlyphAtlasState → List (AtlasFontFaceKey × Nat) → GlyphAtlasState
  | s, [] => s
  | s, (k, gi) :: rest =>
    match resolveGlyph raster s k gi with
    | .ok (_, s₂) => resolveAll raster s₂ rest
    | .error _ => resolveAll raster s rest

/-- The quad instance buffer `Buffer<QuadInstance, 32> _instances` together
with `_instancesCount`: backing storage of `capacity` slots (unwritten
slots hold `none`, mirroring the deliberately uninitialised allocation)
plus the logical count of appended instances. -/
structure InstanceBuffer where
  _instances : List (Option QuadInstance)
  _instancesCount : Nat
deriving DecidableEq

/-- The freshly constructed instance buffer: 32 uninitialised slots, count
zero. -/
def initInstanceBuffer : InstanceBuffer :=
  ⟨List.replicate 32 none, 0⟩

/-- Modelled from the spec: `_bumpInstancesSize` — double the capacity,
copying every already-written slot into the front of the new storage. -/
def bumpInstancesSize (b : InstanceBuffer) : InstanceBuffer :=
  ⟨b._instances ++ List.replicate b._instances.length none, b._instancesCount⟩

/-- Modelled from the spec: `_appendQuad` — grow the storage when the next
append would exceed the capacity, then write the new instance at index
`_instancesCount` and advance the count. -/
def appendQuad (b : InstanceBuffer) (q : QuadInstance) : InstanceBuffer :=
  let b₂ := if b._instancesCount = b._instances.length then bumpInstancesSize b else b
  ⟨b₂._instances.set b₂._instancesCount (some q), b₂._instancesCount + 1⟩

/-- Modelled from the spec: `_flushQuads` — upload the first
`_instancesCount` slots to the GPU in order and reset the logical count to
zero, retaining the storage. -/
def flushQuads (b : InstanceBuffer) : List (Option QuadInstance) × InstanceBuffer :=
  (b._instances.take b._instancesCount, ⟨b._instances, 0⟩)

/-- Append a whole list of instances in order. -/
def appendQuads (b : InstanceBuffer) (qs : List QuadInstance) : InstanceBuffer :=
  qs.foldl appendQuad b

/-- `CursorRect` from the header: `{position : i16x2; size : u16x2;
background : u32; foreground : u32}`. -/
structure CursorRect where
  position : Int × Int
  size : Nat × Nat
  background : Nat
  foreground : Nat
deriving DecidableEq

/-- `til::rect`: the bounding rectangle stored in `_cursorPosition`. -/
structure TilRect where
  left : Int
  top : Int
  right : Int
  bottom : Int
deriving DecidableEq

/-- Union (bounding box) of two rectangles. -/
def rectUnion (a b : TilRect) : TilRect :=
  ⟨min a.left b.left, min a.top b.top, max a.right b.right, max a.bottom b.bottom⟩

/-- The extent of one cursor rectangle as a `TilRect`. -/
def cursorRectBounds (c : CursorRect) : TilRect :=
  ⟨c.position.1, c.position.2, c.position.1 + c.size.1, c.position.2 + c.size.2⟩

/-- Union bounding box of a list of cursor rectangles (`none` when the
list is empty). -/
def boundingRectOf : List CursorRect → Option TilRect
  | [] => none
  | c :: rest => some (rest.foldl (fun acc r => rectUnion acc (cursorRectBounds r)) (cursorRectBounds c))

/-- The cursor styles modelled here: a filled box and the empty
(double-outline) box that is the worst case of the header comment. -/
inductive CursorType where
  | filledBox
  | emptyBox
deriving DecidableEq

/-- One filled rectangle per background-color run of the cursor span. -/
def filledBoxRects (x0 y0 : Int) (hgt : Nat) (fg : Nat) : List (Nat × Nat) → List CursorRect
  | [] => []
  | (color, w) :: rest =>
    ⟨(x0, y0), (w, hgt), color, fg⟩ :: filledBoxRects (x0 + w) y0 hgt fg rest

/-- Horizontal line segments of thickness `t` at vertical offset `yOff`,
one per background-color run of the cursor span. -/
def runLineRects (x0 : Int) (yOff : Int) (t : Nat) (fg : Nat) : List (Nat × Nat) → List CursorRect
  | [] => []
  | (color, w) :: rest =>
    ⟨(x0, yOff), (w, t), color, fg⟩ :: runLineRects (x0 + w) yOff t fg rest

/-- Total width of the cursor span. -/
def runsWidth (runs : List (Nat × Nat)) : Nat :=
  (runs.map Prod.snd).sum

/-- Background color of the first run (used for the left edge line). -/
def firstRunColor (runs : List (Nat × Nat)) : Nat :=
  (runs.head?.map Prod.fst).getD 0

/-- Background color of the last run (used for the right edge line). -/
def lastRunColor (runs : List (Nat × Nat)) : Nat :=
  (runs.getLast?.map Prod.fst).getD 0

/-- Modelled from the spec: the rectangle set of an empty-box cursor over a
span of background-color runs — a left edge, a right edge, and one top and
one bottom line segment per run (`2 + 2·runs` lines; six for a wide cursor
over two differently colored halves). -/
def emptyBoxRects (t : Nat) (x0 y0 : Int) (hgt : Nat) (fg : Nat) (runs : List (Nat × Nat)) : List CursorRect :=
  ⟨(x0, y0), (t, hgt), firstRunColor runs, fg⟩ ::
  ⟨(x0 + runsWidth runs - t, y0), (t, hgt), lastRunColor runs, fg⟩ ::
  (runLineRects x0 y0 t fg runs ++ runLineRects x0 (y0 + hgt - t) t fg runs)

/-- Modelled from the spec: `_drawCursorBackground` — compute the cursor
rectangle list for the given style and the bounding rectangle
`_cursorPosition` covering the whole cursor area. -/
def drawCursorBackgroundModel (ct : CursorType) (t : Nat) (x0 y0 : Int) (hgt : Nat) (fg : Nat)
    (runs : List (Nat × Nat)) : List CursorRect × TilRect :=
  (match ct with
   | .filledBox => filledBoxRects x0 y0 hgt fg runs
   | .emptyBox => emptyBoxRects t x0 y0 hgt fg runs,
   ⟨x0, y0, x0 + runsWidth runs, y0 + hgt⟩)

/-- A concrete rasterizer used to evaluate the model on concrete inputs:
every glyph rasterizes to a 1×1 grayscale bitmap at offset 0. -/
def rasterEx (_k : AtlasFontFaceKey) (_gi : Nat) : RasterResult :=
  ⟨ShadingType.TextGrayscale, (0, 0), (1, 1)⟩

/-- A concrete font-face key used in concrete evaluations. -/
def keyEx : AtlasFontFaceKey :=
  ⟨1, .singleWidth⟩

/-- A concrete quad instance used in concrete evaluations. -/
def qEx : QuadInstance :=
  ⟨ShadingType.Background, (0, 0), (8, 16), (0, 0), 0⟩

/-- A concrete glyph entry payload used in concrete evaluations. -/
def dEx : AtlasGlyphEntryData :=
  ⟨ShadingType.TextGrayscale, 0, (0, 0), (1, 1), (0, 0)⟩

/-- Claim C5: every `QuadInstance` is exactly the fixed-size record
`{shadingType:u32, position:i16x2, size:u16x2, texcoord:u16x2, color:u32}`
with every field aligned to a 32-bit boundary: the five fields occupy 4
bytes each at offsets 0, 4, 8, 12, 16 for a total size of 20 bytes, with
`position` signed and `size`/`texcoord` unsigned. -/
theorem quadInstance_layout :
    fieldOffsets 0 QuadInstance.fields = [0, 4, 8, 12, 16]
    ∧ structSize QuadInstance.fields = 20
    ∧ (fieldOffsets 0 QuadInstance.fields).all (fun o => o % 4 == 0) = true
    ∧ QuadInstance.fields.map CScalarField.byteSize = [4, 4, 4, 4, 4]
    ∧ QuadInstance.fields.map CScalarField.signed = [false, true, false, false, false] := by
  decide

/-- Claim C6: the values `TextGrayscale … SolidLine` form the contiguous
range `[TextDrawingFirst, TextDrawingLast] = [1, 6]`, so membership is a
single range test, and every value from `SolidLine` onward (`SolidLine`,
`Cursor`, `Selection`) is composited as a flat RGBA color rather than
sampled from the atlas. -/
theorem shadingType_textDrawing_contiguous :
    (textDrawingValues = [1, 2, 3, 4, 5, 6]
      ∧ ShadingType.TextDrawingFirst = 1
      ∧ ShadingType.TextDrawingLast = 6
      ∧ drawsAsSolidColor ShadingType.SolidLine = true
      ∧ drawsAsSolidColor ShadingType.Cursor = true
      ∧ drawsAsSolidColor ShadingType.Selection = true
      ∧ drawsAsSolidColor ShadingType.DottedLineWide = false
      ∧ drawsAsSolidColor ShadingType.TextGrayscale = false)
    ∧ ∀ v : Nat, isTextDrawingPrimitive v = true ↔ v ∈ textDrawingValues := by
  refine ⟨by decide, fun v => ?_⟩
  simp only [isTextDrawingPrimitive, textDrawingValues, ShadingType.TextDrawingFirst,
    ShadingType.TextDrawingLast, ShadingType.TextGrayscale, ShadingType.TextClearType,
    ShadingType.TextPassthrough, ShadingType.DottedLine, ShadingType.DottedLineWide,
    ShadingType.SolidLine, Bool.and_eq_true, decide_eq_true_eq, List.mem_cons,
    List.mem_singleton, List.not_mem_nil, or_false]
  omega

/-- Witness for C6: `DottedLine = 4` passes the range test because it is one
of the six text-drawing enumerators. -/
theorem shadingType_textDrawing_contiguous_witness :
    isTextDrawingPrimitive ShadingType.DottedLine = true :=
  (shadingType_textDrawing_contiguous.2 ShadingType.DottedLine).mpr (by decide)

/-- Claim C10: `ShadingType::Default` and `ShadingType::Background` are the
same enumerator value (both 0), so a default-initialised shading type is
composited as a Background quad, and this value lies outside the
text-drawing range `[TextDrawingFirst, TextDrawingLast] = [1, 6]`. -/
theorem shadingType_default_is_background :
    ShadingType.Default = ShadingType.Background
    ∧ ShadingType.Default = 0
    ∧ ShadingType.Background = 0
    ∧ isTextDrawingPrimitive ShadingType.Default = false
    ∧ ShadingType.TextDrawingFirst = 1
    ∧ ShadingType.TextDrawingLast = 6 := by
  decide

/-- Claim C7: an `AtlasFontFaceEntry` matches an `AtlasFontFaceKey` exactly
when the stored `fontFace` pointer equals the key's `fontFace` pointer and
the stored `lineRendition` equals the key's `lineRendition` — pointer
identity of the rasterizer-returned face, never structural equality of the
face's contents (the cached `glyphs`/`boxGlyphs` do not participate). -/
theorem atlasFontFaceEntry_matches_iff_pointer_eq :
    ∀ (i : AtlasFontFaceEntryInner) (k : AtlasFontFaceKey),
      (AtlasFontFaceEntry.mk (some i)).matchesKey k = true
        ↔ i.fontFace = k.fontFace ∧ i.lineRendition = k.lineRendition := by
  intro i k
  simp [AtlasFontFaceEntry.matchesKey, AtlasFontFaceEntryInner.matchesKey]

/-- Witness for C7: an entry holding pointer id 1 with `SingleWidth`
rendition and a non-empty glyph cache matches the key `(1, SingleWidth)`. -/
theorem atlasFontFaceEntry_matches_witness :
    (AtlasFontFaceEntry.mk (some ⟨1, .singleWidth, [⟨7, 1, dEx⟩], [3]⟩)).matchesKey keyEx = true :=
  (atlasFontFaceEntry_matches_iff_pointer_eq ⟨1, .singleWidth, [⟨7, 1, dEx⟩], [3]⟩ keyEx).mpr
    ⟨rfl, rfl⟩

/-- Claim C8: an `AtlasGlyphEntry` converts to `true` (occupied) iff its
`_occupied` field is non-zero, and assigning a glyph index `k` sets
`glyphIndex` to `k` and marks the entry occupied, after which the entry
compares equal to `k` — a valid empty-slot state distinct from "not
present", needing no separate tombstone. -/
theorem atlasGlyphEntry_occupied_assign :
    ∀ (e : AtlasGlyphEntry) (k : Nat),
      (e.occupiedB = true ↔ e._occupied ≠ 0)
      ∧ (e.assignKey k).glyphIndex = k
      ∧ (e.assignKey k)._occupied = 1
      ∧ (e.assignKey k).occupiedB = true
      ∧ (e.assignKey k).eqKey k = true
      ∧ (e.assignKey k).data = e.data := by
  intro e k
  refine ⟨by simp [AtlasGlyphEntry.occupiedB], rfl, rfl, ?_, ?_, rfl⟩
  · simp [AtlasGlyphEntry.occupiedB, AtlasGlyphEntry.assignKey]
  · simp [AtlasGlyphEntry.eqKey, AtlasGlyphEntry.assignKey]

/-- Witness for C8: a fresh unoccupied slot is not "present"; assigning
glyph index 7 to it makes it occupied and equal to 7. -/
theorem atlasGlyphEntry_occupied_assign_witness :
    (AtlasGlyphEntry.mk 0 0 dEx).occupiedB = false
    ∧ ((AtlasGlyphEntry.mk 0 0 dEx).assignKey 7).occupiedB = true :=
  ⟨by decide, ((atlasGlyphEntry_occupied_assign (AtlasGlyphEntry.mk 0 0 dEx) 7).2.2.2.1)⟩

/-- Claim C2: when rectangle placement fails while resolving a glyph
(`atlasFull`), the Text emitter performs exactly one atlas reset and
exactly one replay of the failed resolution; if that single retry also
fails, the condition is escalated as the fatal `atlasTooSmall` — at most
two resolution attempts, at most one reset, no unbounded retry loop and no
silent dropping of the glyph. -/
theorem drawGlyph_retry_contract :
    ∀ (raster : AtlasFontFaceKey → Nat → RasterResult) (s : GlyphAtlasState)
      (k : AtlasFontFaceKey) (gi : Nat),
      (drawGlyphWithRetryCounted raster s k gi).2.1 ≤ 2
      ∧ (drawGlyphWithRetryCounted raster s k gi).2.2 ≤ 1
      ∧ (drawGlyphWithRetryCounted raster s k gi).1 = drawGlyphWithRetry raster s k gi
      ∧ (drawGlyphWithRetry raster s k gi = .error .atlasTooSmall
          ↔ (∃ e₁, resolveGlyph raster s k gi = .error e₁)
            ∧ ∃ e₂, resolveGlyph raster (drawGlyphPrepareRetry s) k gi = .error e₂)
      ∧ (∀ e, drawGlyphWithRetry raster s k gi = .error e → e = .atlasTooSmall)
      ∧ (∀ r, resolveGlyph raster s k gi = .ok r →
          drawGlyphWithRetry raster s k gi = .ok r
          ∧ (drawGlyphWithRetryCounted raster s k gi).2 = (1, 0))
      ∧ (∀ e₁ r, resolveGlyph raster s k gi = .error e₁ →
          resolveGlyph raster (drawGlyphPrepareRetry s) k gi = .ok r →
          drawGlyphWithRetry raster s k gi = .ok r
          ∧ (drawGlyphWithRetryCounted raster s k gi).2 = (2, 1)) := by
  intro raster s k gi
  cases h₁ : resolveGlyph raster s k gi with
  | ok r₁ =>
    refine ⟨?_, ?_, ?_, ?_, ?_, ?_, ?_⟩ <;>
      simp [drawGlyphWithRetryCounted, drawGlyphWithRetry, h₁]
  | error e₁ =>
    cases h₂ : resolveGlyph raster (drawGlyphPrepareRetry s) k gi with
    | ok r₂ =>
      refine ⟨?_, ?_, ?_, ?_, ?_, ?_, ?_⟩ <;>
        simp [drawGlyphWithRetryCounted, drawGlyphWithRetry, h₁, h₂]
    | error e₂ =>
      refine ⟨?_, ?_, ?_, ?_, ?_, ?_, ?_⟩ <;>
        simp [drawGlyphWithRetryCounted, drawGlyphWithRetry, h₁, h₂]

/-- Witness for C2: over a 0×0 atlas both the first resolution and the
single post-reset replay fail, and the condition is escalated as the fatal
`atlasTooSmall`. -/
theorem drawGlyph_retry_witness :
    drawGlyphWithRetry rasterEx (initGlyphAtlasState 0 0) keyEx 1 = .error .atlasTooSmall :=
  ((drawGlyph_retry_contract rasterEx (initGlyphAtlasState 0 0) keyEx 1).2.2.2.1).mpr
    ⟨⟨.atlasFull, rfl⟩, ⟨.atlasFull, rfl⟩⟩

/-- Writing at a slot at or beyond `j` leaves the first `j` slots alone. -/
theorem take_set_of_le {α : Type} (l : List α) (i j : Nat) (a : α) (h : j ≤ i) :
    (l.set i a).take j = l.take j := by
  induction l generalizing i j with
  | nil => simp
  | cons x t ih =>
    cases i with
    | zero =>
      have : j = 0 := Nat.le_zero.mp h
      simp [this]
    | succ i =>
      cases j with
      | zero => simp
      | succ j => simp [List.set, ih i j (Nat.le_of_succ_le_succ h)]

/-- Writing at slot `i` and keeping `i + 1` slots appends the new element
after the untouched first `i` slots. -/
theorem take_set_last {α : Type} (l : List α) (i : Nat) (a : α) (h : i < l.length) :
    (l.set i a).take (i + 1) = l.take i ++ [a] := by
  induction l generalizing i with
  | nil => simp at h
  | cons x t ih =>
    cases i with
    | zero => simp
    | succ i => simp [List.set, ih i (by simpa using h)]

/-- Equation for `_appendQuad` on a full buffer: grow, then write. -/
theorem appendQuad_full (b : InstanceBuffer) (q : QuadInstance)
    (hfull : b._instancesCount = b._instances.length) :
    appendQuad b q =
      ⟨(b._instances ++ List.replicate b._instances.length none).set b._instancesCount (some q),
        b._instancesCount + 1⟩ := by
  simp [appendQuad, hfull, bumpInstancesSize]

/-- Equation for `_appendQuad` on a non-full buffer: write in place. -/
theorem appendQuad_not_full (b : InstanceBuffer) (q : QuadInstance)
    (hfull : b._instancesCount ≠ b._instances.length) :
    appendQuad b q = ⟨b._instances.set b._instancesCount (some q), b._instancesCount + 1⟩ := by
  simp [appendQuad, hfull]

/-- One `_appendQuad` step: the count advances by one, the already-written
slots are preserved, and the capacity either stays or exactly doubles
(the latter exactly when the buffer was full). -/
theorem appendQuad_step (b : InstanceBuffer) (q : QuadInstance)
    (hle : b._instancesCount ≤ b._instances.length) (hpos : 0 < b._instances.length) :
    (appendQuad b q)._instancesCount = b._instancesCount + 1
    ∧ (appendQuad b q)._instancesCount ≤ (appendQuad b q)._instances.length
    ∧ 0 < (appendQuad b q)._instances.length
    ∧ (appendQuad b q)._instances.take (appendQuad b q)._instancesCount
        = b._instances.take b._instancesCount ++ [some q]
    ∧ ((appendQuad b q)._instances.length = b._instances.length
        ∨ (b._instancesCount = b._instances.length
            ∧ (appendQuad b q)._instances.length = 2 * b._instances.length)) := by
  by_cases hfull : b._instancesCount = b._instances.length
  · rw [appendQuad_full b q hfull]
    have hlt : b._instancesCount < (b._instances ++ List.replicate b._instances.length none).length := by
      simp; omega
    refine ⟨rfl, ?_, ?_, ?_, ?_⟩
    · simp [List.length_set]; omega
    · simp [List.length_set]; omega
    · show ((b._instances ++ List.replicate b._instances.length none).set
          b._instancesCount (some q)).take (b._instancesCount + 1)
        = b._instances.take b._instancesCount ++ [some q]
      rw [take_set_last _ _ _ hlt,
        List.take_append_of_le_length (Nat.le_of_eq hfull)]
    · right
      refine ⟨hfull, ?_⟩
      simp [List.length_set]
      omega
  · have hlt : b._instancesCount < b._instances.length := Nat.lt_of_le_of_ne hle hfull
    rw [appendQuad_not_full b q hfull]
    refine ⟨rfl, ?_, ?_, ?_, ?_⟩
    · simp [List.length_set]; omega
    · simp [List.length_set]; omega
    · exact take_set_last _ _ _ hlt
    · left
      simp [List.length_set]

/-- Folding `_appendQuad` over a list: counts add up, the written region is
the old region followed by the new instances in order, and the capacity is
the old capacity times a power of two. -/
theorem appendQuads_spec (qs : List QuadInstance) :
    ∀ b : InstanceBuffer, b._instancesCount ≤ b._instances.length → 0 < b._instances.length →
      (appendQuads b qs)._instancesCount = b._instancesCount + qs.length
      ∧ (appendQuads b qs)._instancesCount ≤ (appendQuads b qs)._instances.length
      ∧ 0 < (appendQuads b qs)._instances.length
      ∧ (appendQuads b qs)._instances.take (appendQuads b qs)._instancesCount
          = b._instances.take b._instancesCount ++ qs.map some
      ∧ ∃ k, (appendQuads b qs)._instances.length = b._instances.length * 2 ^ k := by
  induction qs with
  | nil =>
    intro b hle hpos
    refine ⟨by simp [appendQuads], by simpa [appendQuads] using hle,
      by simpa [appendQuads] using hpos, by simp [appendQuads], ⟨0, by simp [appendQuads]⟩⟩
  | cons q rest ih =>
    intro b hle hpos
    have hstep := appendQuad_step b q hle hpos
    have hfold : appendQuads b (q :: rest) = appendQuads (appendQuad b q) rest := rfl
    have hrec := ih (appendQuad b q) (hstep.2.1) (hstep.2.2.1)
    refine ⟨?_, hrec.2.1, hrec.2.2.1, ?_, ?_⟩
    · rw [hfold, hrec.1, hstep.1]
      simp [Nat.add_assoc, Nat.add_comm 1 rest.length]
    · rw [hfold, hrec.2.2.2.1, hstep.2.2.2.1]
      simp
    · obtain ⟨k, hk⟩ := hrec.2.2.2.2
      rcases hstep.2.2.2.2 with hsame | ⟨_, hdouble⟩
      · exact ⟨k, by rw [hfold, hk, hsame]⟩
      · refine ⟨k + 1, ?_⟩
        rw [hfold, hk, hdouble]
        ring

/-- Claim C4: appending N instances to the quad instance buffer and then
flushing uploads exactly those N instances in append order; the starting
capacity is 32 (hence at least 32), the capacity stays a doubling of 32,
growth happens exactly when the next append would exceed the capacity and
preserves every already-written instance, and the flush resets the logical
count to zero while retaining the storage. -/
theorem instanceBuffer_append_flush :
    ∀ qs : List QuadInstance,
      (flushQuads (appendQuads initInstanceBuffer qs)).1 = qs.map some
      ∧ (flushQuads (appendQuads initInstanceBuffer qs)).2._instancesCount = 0
      ∧ (flushQuads (appendQuads initInstanceBuffer qs)).2._instances
          = (appendQuads initInstanceBuffer qs)._instances
      ∧ initInstanceBuffer._instances.length = 32
      ∧ (∃ k, (appendQuads initInstanceBuffer qs)._instances.length = 32 * 2 ^ k)
      ∧ qs.length ≤ (appendQuads initInstanceBuffer qs)._instances.length
      ∧ (∀ (b : InstanceBuffer) (q : QuadInstance),
          b._instancesCount = b._instances.length →
          (appendQuad b q)._instances.length = 2 * b._instances.length)
      ∧ (∀ (b : InstanceBuffer) (q : QuadInstance),
          b._instancesCount < b._instances.length →
          (appendQuad b q)._instances.length = b._instances.length)
      ∧ (∀ (b : InstanceBuffer) (q : QuadInstance),
          (appendQuad b q)._instances.take b._instancesCount
            = b._instances.take b._instancesCount) := by
  intro qs
  have hinit : initInstanceBuffer._instancesCount ≤ initInstanceBuffer._instances.length := by
    simp [initInstanceBuffer]
  have hpos : 0 < initInstanceBuffer._instances.length := by
    simp [initInstanceBuffer]
  have h := appendQuads_spec qs initInstanceBuffer hinit hpos
  refine ⟨?_, rfl, rfl, by simp [initInstanceBuffer], ?_, ?_, ?_, ?_, ?_⟩
  · have := h.2.2.2.1
    simpa [flushQuads, initInstanceBuffer] using this
  · simpa [initInstanceBuffer] using h.2.2.2.2
  · have := h.2.1
    rw [h.1] at this
    simpa [initInstanceBuffer] using this
  · intro b q hfull
    rw [appendQuad_full b q hfull]
    simp [List.length_set]
    omega
  · intro b q hlt
    rw [appendQuad_not_full b q (Nat.ne_of_lt hlt)]
    simp [List.length_set]
  · intro b q
    by_cases hfull : b._instancesCount = b._instances.length
    · rw [appendQuad_full b q hfull]
      show ((b._instances ++ List.replicate b._instances.length none).set
          b._instancesCount (some q)).take b._instancesCount
        = b._instances.take b._instancesCount
      rw [take_set_of_le _ _ _ _ (Nat.le_refl _),
        List.take_append_of_le_length (Nat.le_of_eq hfull)]
    · rw [appendQuad_not_full b q hfull]
      exact take_set_of_le _ _ _ _ (Nat.le_refl _)

/-- Witness for C4: a full one-slot buffer doubles its capacity on the next
append. -/
theorem instanceBuffer_append_flush_witness :
    (appendQuad ⟨[some qEx], 1⟩ qEx)._instances.length = 2 * [some qEx].length :=
  (instanceBuffer_append_flush []).2.2.2.2.2.2.1 ⟨[some qEx], 1⟩ qEx rfl

/-- Matching a face entry against a key ignores the cached glyphs. -/
theorem matchesKey_set_glyphs (f : AtlasFontFaceEntryInner) (k : AtlasFontFaceKey)
    (gs : List AtlasGlyphEntry) :
    ({ f with glyphs := gs } : AtlasFontFaceEntryInner).matchesKey k = f.matchesKey k :=
  rfl

/-- After appending a glyph to the first matching face, the first matching
face is that face with the glyph appended. -/
theorem find?_addGlyphToFace_of_found (faces : List AtlasFontFaceEntryInner)
    (k : AtlasFontFaceKey) (e : AtlasGlyphEntry) (f : AtlasFontFaceEntryInner)
    (h : faces.find? (fun g => g.matchesKey k) = some f) :
    (addGlyphToFace faces k e).find? (fun g => g.matchesKey k)
      = some { f with glyphs := f.glyphs ++ [e] } := by
  induction faces with
  | nil => simp at h
  | cons g gs ih =>
    by_cases hm : g.matchesKey k = true
    · rw [List.find?_cons_of_pos gs hm] at h
      obtain rfl : g = f := by injection h
      have hadd : addGlyphToFace (g :: gs) k e = { g with glyphs := g.glyphs ++ [e] } :: gs := by
        simp [addGlyphToFace, hm]
      rw [hadd]
      exact List.find?_cons_of_pos gs hm
    · have hm' : g.matchesKey k = false := by
        cases hg : g.matchesKey k
        · rfl
        · exact absurd hg hm
      rw [List.find?_cons_of_neg gs hm] at h
      have hadd : addGlyphToFace (g :: gs) k e = g :: addGlyphToFace gs k e := by
        simp [addGlyphToFace, hm']
      rw [hadd, List.find?_cons_of_neg (addGlyphToFace gs k e) hm]
      exact ih h

/-- `addGlyphToFace` skips over a run of faces none of which match. -/
theorem addGlyphToFace_append_of_none (faces rest : List AtlasFontFaceEntryInner)
    (k : AtlasFontFaceKey) (e : AtlasGlyphEntry)
    (h : ∀ f ∈ faces, f.matchesKey k = false) :
    addGlyphToFace (faces ++ rest) k e = faces ++ addGlyphToFace rest k e := by
  induction faces with
  | nil => rfl
  | cons g gs ih =>
    have hg : g.matchesKey k = false := h g (List.mem_cons_self g gs)
    have hadd : addGlyphToFace (g :: (gs ++ rest)) k e = g :: addGlyphToFace (gs ++ rest) k e := by
      simp [addGlyphToFace, hg]
    calc addGlyphToFace ((g :: gs) ++ rest) k e
        = g :: addGlyphToFace (gs ++ rest) k e := hadd
      _ = g :: (gs ++ addGlyphToFace rest k e) := by
          rw [ih (fun f hf => h f (List.mem_cons_of_mem g hf))]
      _ = (g :: gs) ++ addGlyphToFace rest k e := rfl

/-- The fresh inner state created for a key matches that key. -/
theorem fresh_inner_matches (k : AtlasFontFaceKey) :
    (⟨k.fontFace, k.lineRendition, [], []⟩ : AtlasFontFaceEntryInner).matchesKey k = true := by
  simp [AtlasFontFaceEntryInner.matchesKey]

/-- The freshly inserted glyph entry satisfies the lookup predicate. -/
theorem fresh_entry_found (gi : Nat) (d : AtlasGlyphEntryData) :
    ((⟨gi, 1, d⟩ : AtlasGlyphEntry).eqKey gi && (⟨gi, 1, d⟩ : AtlasGlyphEntry).occupiedB) = true := by
  simp [AtlasGlyphEntry.eqKey, AtlasGlyphEntry.occupiedB]

/-- After a miss is repaired by inserting the rasterized glyph, looking the
same `(face key, glyph index)` pair up again returns exactly the inserted
data. -/
theorem lookupGlyphInMap_insert (faces : List AtlasFontFaceEntryInner)
    (k : AtlasFontFaceKey) (gi : Nat) (d : AtlasGlyphEntryData)
    (hmiss : lookupGlyphInMap faces k gi = none) :
    lookupGlyphInMap (addGlyphToFace (ensureFace faces k) k ⟨gi, 1, d⟩) k gi = some d := by
  cases hf : faces.find? (fun g => g.matchesKey k) with
  | none =>
    have hall : ∀ f ∈ faces, f.matchesKey k = false := by
      intro f hfm
      have := List.find?_eq_none.mp hf f hfm
      cases hg : f.matchesKey k
      · rfl
      · exact absurd hg this
    have hany : faces.any (fun g => g.matchesKey k) = false := by
      rw [List.any_eq_false]
      intro f hfm
      rw [hall f hfm]
      exact Bool.false_ne_true
    have hens : ensureFace faces k = faces ++ [⟨k.fontFace, k.lineRendition, [], []⟩] := by
      simp [ensureFace, hany]
    have hone : addGlyphToFace [⟨k.fontFace, k.lineRendition, [], []⟩] k ⟨gi, 1, d⟩
        = [⟨k.fontFace, k.lineRendition, [⟨gi, 1, d⟩], []⟩] := by
      simp [addGlyphToFace, fresh_inner_matches k]
    have hfind : List.find? (fun g : AtlasFontFaceEntryInner => g.matchesKey k)
        [⟨k.fontFace, k.lineRendition, [⟨gi, 1, d⟩], []⟩]
        = some ⟨k.fontFace, k.lineRendition, [⟨gi, 1, d⟩], []⟩ := by
      simp [List.find?_cons, AtlasFontFaceEntryInner.matchesKey]
    have hg : List.find? (fun g : AtlasGlyphEntry => g.eqKey gi && g.occupiedB)
        [(⟨gi, 1, d⟩ : AtlasGlyphEntry)] = some ⟨gi, 1, d⟩ := by
      simp [List.find?_cons, AtlasGlyphEntry.eqKey, AtlasGlyphEntry.occupiedB]
    rw [hens, addGlyphToFace_append_of_none faces _ k _ hall, hone]
    unfold lookupGlyphInMap
    rw [List.find?_append, hf, Option.none_or, hfind]
    show (List.find? (fun g => g.eqKey gi && g.occupiedB)
        [(⟨gi, 1, d⟩ : AtlasGlyphEntry)]).map (fun g => g.data) = some d
    rw [hg]
    rfl
  | some f =>
    have hens : ensureFace faces k = faces := by
      have hmem := List.mem_of_find?_eq_some hf
      have hp := List.find?_some hf
      have hany : faces.any (fun g => g.matchesKey k) = true :=
        List.any_eq_true.mpr ⟨f, hmem, hp⟩
      simp [ensureFace, hany]
    have hgl : f.glyphs.find? (fun g => g.eqKey gi && g.occupiedB) = none := by
      unfold lookupGlyphInMap at hmiss
      rw [hf] at hmiss
      exact Option.map_eq_none.mp hmiss
    have hg : List.find? (fun g : AtlasGlyphEntry => g.eqKey gi && g.occupiedB)
        [(⟨gi, 1, d⟩ : AtlasGlyphEntry)] = some ⟨gi, 1, d⟩ := by
      simp [List.find?_cons, AtlasGlyphEntry.eqKey, AtlasGlyphEntry.occupiedB]
    rw [hens]
    unfold lookupGlyphInMap
    rw [find?_addGlyphToFace_of_found faces k _ f hf]
    show ((f.glyphs ++ [(⟨gi, 1, d⟩ : AtlasGlyphEntry)]).find?
        (fun g => g.eqKey gi && g.occupiedB)).map (fun g => g.data) = some d
    rw [List.find?_append, hgl, Option.none_or, hg]
    rfl

/-- Equation for `resolve` on a cache hit: the cached data is returned and
the state is untouched. -/
theorem resolveGlyph_hit (raster : AtlasFontFaceKey → Nat → RasterResult)
    (s : GlyphAtlasState) (k : AtlasFontFaceKey) (gi : Nat) (d : AtlasGlyphEntryData)
    (h : lookupGlyph s k gi = some d) :
    resolveGlyph raster s k gi = .ok (d, s) := by
  simp only [resolveGlyph, h]

/-- Equation for `resolve` on a miss whose placement succeeds: the
rasterized glyph is recorded at the packed position and returned. -/
theorem resolveGlyph_miss_packed (raster : AtlasFontFaceKey → Nat → RasterResult)
    (s : GlyphAtlasState) (k : AtlasFontFaceKey) (gi : Nat) (pr : PackRect)
    (packer : RectPacker)
    (hmiss : lookupGlyph s k gi = none)
    (hp : tryPack s.rectPacker (raster k gi).size.1 (raster k gi).size.2 = some (pr, packer)) :
    resolveGlyph raster s k gi = .ok
      (⟨(raster k gi).shadingType, 0, (raster k gi).offset, (raster k gi).size, (pr.x, pr.y)⟩,
        ⟨addGlyphToFace (ensureFace s.glyphAtlasMap k) k
            ⟨gi, 1, ⟨(raster k gi).shadingType, 0, (raster k gi).offset, (raster k gi).size,
              (pr.x, pr.y)⟩⟩,
          packer⟩) := by
  simp only [resolveGlyph, hmiss, hp]

/-- Equation for `resolve` on a miss whose placement fails: the retryable
`atlasFull` condition is propagated to the caller. -/
theorem resolveGlyph_miss_full (raster : AtlasFontFaceKey → Nat → RasterResult)
    (s : GlyphAtlasState) (k : AtlasFontFaceKey) (gi : Nat)
    (hmiss : lookupGlyph s k gi = none)
    (hp : tryPack s.rectPacker (raster k gi).size.1 (raster k gi).size.2 = none) :
    resolveGlyph raster s k gi = .error .atlasFull := by
  simp only [resolveGlyph, hmiss, hp]

/-- Claim C3 (theorem): resolving the same `(font-face key, glyph index)`
pair twice with no intervening atlas reset returns bit-identical placement
data and leaves the cache untouched: `resolve` is idempotent and the
second call is served from the cache. -/
theorem resolveGlyph_idempotent :
    ∀ (raster : AtlasFontFaceKey → Nat → RasterResult) (s : GlyphAtlasState)
      (k : AtlasFontFaceKey) (gi : Nat) (d : AtlasGlyphEntryData) (s₂ : GlyphAtlasState),
      resolveGlyph raster s k gi = .ok (d, s₂) →
      resolveGlyph raster s₂ k gi = .ok (d, s₂) := by
  intro raster s k gi d s₂ h
  cases hl : lookupGlyph s k gi with
  | some d₀ =>
    rw [resolveGlyph_hit raster s k gi d₀ hl] at h
    injection h with h'
    obtain ⟨rfl, rfl⟩ := Prod.mk.inj h'
    exact resolveGlyph_hit raster s k gi d₀ hl
  | none =>
    cases hp : tryPack s.rectPacker (raster k gi).size.1 (raster k gi).size.2 with
    | none =>
      rw [resolveGlyph_miss_full raster s k gi hl hp] at h
      exact Except.noConfusion h
    | some prpacker =>
      obtain ⟨pr, packer⟩ := prpacker
      rw [resolveGlyph_miss_packed raster s k gi pr packer hl hp] at h
      injection h with h'
      obtain ⟨rfl, rfl⟩ := Prod.mk.inj h'
      exact resolveGlyph_hit raster _ k gi _
        (lookupGlyphInMap_insert s.glyphAtlasMap k gi _ hl)

/-- Witness for C3: over a fresh 4×4 atlas, resolving glyph 1 of `keyEx`
places it at texcoord (0, 0) and a second resolution returns the identical
data and state. -/
theorem resolveGlyph_idempotent_witness :
    resolveGlyph rasterEx
        ⟨[⟨1, .singleWidth, [⟨1, 1, dEx⟩], []⟩], ⟨[1, 0, 0, 0], 4⟩⟩ keyEx 1
      = .ok (dEx, ⟨[⟨1, .singleWidth, [⟨1, 1, dEx⟩], []⟩], ⟨[1, 0, 0, 0], 4⟩⟩) :=
  resolveGlyph_idempotent rasterEx (initGlyphAtlasState 4 4) keyEx 1 dEx
    ⟨[⟨1, .singleWidth, [⟨1, 1, dEx⟩], []⟩], ⟨[1, 0, 0, 0], 4⟩⟩ rfl

/-- Raising skyline columns does not change the atlas width. -/
theorem raiseColumns_length (hs : List Nat) :
    ∀ (x w v : Nat), (raiseColumns hs x w v).length = hs.length := by
  induction hs with
  | nil => intro x w v; rfl
  | cons c t ih =>
    intro x w v
    cases x with
    | zero =>
      cases w with
      | zero => rfl
      | succ w =>
        show (v :: raiseColumns t 0 w v).length = (c :: t).length
        simp [ih 0 w v]
    | succ x =>
      show (c :: raiseColumns t x w v).length = (c :: t).length
      simp [ih x w v]

/-- Inside the raised span (and inside the list) the skyline reads the new
value. -/
theorem getD_raiseColumns_in (hs : List Nat) :
    ∀ (x w v c : Nat), x ≤ c → c < x + w → c < hs.length →
      (raiseColumns hs x w v).getD c 0 = v := by
  induction hs with
  | nil => intro x w v c _ _ hc; simp at hc
  | cons c₀ t ih =>
    intro x w v c hxc hcw hc
    cases x with
    | zero =>
      cases w with
      | zero => omega
      | succ w =>
        show (v :: raiseColumns t 0 w v).getD c 0 = v
        cases c with
        | zero => rfl
        | succ c =>
          show (raiseColumns t 0 w v).getD c 0 = v
          exact ih 0 w v c (Nat.zero_le c) (by omega) (by simpa using hc)
    | succ x =>
      show (c₀ :: raiseColumns t x w v).getD c 0 = v
      cases c with
      | zero => omega
      | succ c =>
        show (raiseColumns t x w v).getD c 0 = v
        exact ih x w v c (by omega) (by omega) (by simpa using hc)

/-- Outside the raised span the skyline is unchanged. -/
theorem getD_raiseColumns_out (hs : List Nat) :
    ∀ (x w v c : Nat), c < x ∨ x + w ≤ c →
      (raiseColumns hs x w v).getD c 0 = hs.getD c 0 := by
  induction hs with
  | nil => intro x w v c _; rfl
  | cons c₀ t ih =>
    intro x w v c hout
    cases x with
    | zero =>
      cases w with
      | zero => rfl
      | succ w =>
        show (v :: raiseColumns t 0 w v).getD c 0 = (c₀ :: t).getD c 0
        cases c with
        | zero => omega
        | succ c =>
          show (raiseColumns t 0 w v).getD c 0 = t.getD c 0
          exact ih 0 w v c (by omega)
    | succ x =>
      show (c₀ :: raiseColumns t x w v).getD c 0 = (c₀ :: t).getD c 0
      cases c with
      | zero => rfl
      | succ c =>
        show (raiseColumns t x w v).getD c 0 = t.getD c 0
        exact ih x w v c (by omega)

/-- Every column of a span is bounded by the span's skyline maximum. -/
theorem getD_le_maxHeights (hs : List Nat) :
    ∀ (x w c : Nat), x ≤ c → c < x + w → hs.getD c 0 ≤ maxHeights hs x w := by
  induction hs with
  | nil =>
    intro x w c _ _
    cases w with
    | zero => exact Nat.le_refl 0
    | succ w => exact Nat.le_refl 0
  | cons c₀ t ih =>
    intro x w c hxc hcw
    cases x with
    | zero =>
      cases w with
      | zero => omega
      | succ w =>
        show (c₀ :: t).getD c 0 ≤ max c₀ (maxHeights t 0 w)
        cases c with
        | zero => exact Nat.le_max_left c₀ _
        | succ c =>
          show t.getD c 0 ≤ max c₀ (maxHeights t 0 w)
          exact Nat.le_trans (ih 0 w c (Nat.zero_le c) (by omega)) (Nat.le_max_right c₀ _)
    | succ x =>
      cases w with
      | zero => omega
      | succ w =>
        show (c₀ :: t).getD c 0 ≤ maxHeights t x (w + 1)
        cases c with
        | zero => omega
        | succ c =>
          show t.getD c 0 ≤ maxHeights t x (w + 1)
          exact ih x (w + 1) c (by omega) (by omega)

/-- The step function of the bottom-left heuristic fold only ever returns a
candidate it was handed. -/
theorem bestPosition_fold_bound (hs : List Nat) (w : Nat) (P : Nat → Prop) :
    ∀ (l : List Nat) (acc : Option Nat),
      (∀ b, acc = some b → P b) → (∀ a ∈ l, P a) →
      ∀ x, l.foldl
          (fun best x =>
            match best with
            | none => some x
            | some b => if maxHeights hs x w < maxHeights hs b w then some x else best)
          acc = some x → P x := by
  intro l
  induction l with
  | nil => intro acc hacc _ x hx; exact hacc x hx
  | cons a t ih =>
    intro acc hacc hmem x hx
    refine ih _ ?_ (fun b hb => hmem b (List.mem_cons_of_mem a hb)) x hx
    intro b hb
    cases acc with
    | none =>
      simp only at hb
      obtain rfl : a = b := by injection hb
      exact hmem a (List.mem_cons_self a t)
    | some b₀ =>
      simp only at hb
      by_cases hcmp : maxHeights hs a w < maxHeights hs b₀ w
      · rw [if_pos hcmp] at hb
        obtain rfl : a = b := by injection hb
        exact hmem a (List.mem_cons_self a t)
      · rw [if_neg hcmp] at hb
        obtain rfl : b₀ = b := by injection hb
        exact hacc b₀ rfl

/-- A position returned by the bottom-left heuristic keeps the rectangle
inside the atlas width. -/
theorem bestPosition_le (hs : List Nat) (w x : Nat) (h : bestPosition hs w = some x) :
    x + w ≤ hs.length := by
  have hx : x < hs.length + 1 - w := by
    refine bestPosition_fold_bound hs w (fun y => y < hs.length + 1 - w)
      (List.range (hs.length + 1 - w)) none ?_ ?_ x h
    · intro b hb; exact absurd hb (by simp)
    · intro a ha; exact List.mem_range.mp ha
  omega

/-- Specification of one successful packing step: the placement echoes the
requested extent, lies inside the atlas, the skyline only rises, rises to
exactly the placement's top over its span, and the placement's bottom sits
at or above the old skyline over its span. -/
theorem tryPack_spec (st : RectPacker) (w h : Nat) (pr : PackRect) (st₂ : RectPacker)
    (hp : tryPack st w h = some (pr, st₂)) :
    pr.w = w ∧ pr.h = h
    ∧ pr.x + w ≤ st.heights.length
    ∧ pr.y + h ≤ st.atlasHeight
    ∧ st₂.heights.length = st.heights.length
    ∧ st₂.atlasHeight = st.atlasHeight
    ∧ (∀ c, st.heights.getD c 0 ≤ st₂.heights.getD c 0)
    ∧ (∀ c, pr.x ≤ c → c < pr.x + w → pr.y + h ≤ st₂.heights.getD c 0)
    ∧ (∀ c, pr.x ≤ c → c < pr.x + w → st.heights.getD c 0 ≤ pr.y) := by
  unfold tryPack at hp
  cases hb : bestPosition st.heights w with
  | none => rw [hb] at hp; exact Option.noConfusion hp
  | some x =>
    simp only [hb] at hp
    by_cases hfit : maxHeights st.heights x w + h ≤ st.atlasHeight
    · rw [if_pos hfit] at hp
      injection hp with hp'
      obtain ⟨hpr, hst⟩ := Prod.mk.inj hp'
      subst hpr
      subst hst
      dsimp only
      have hxw : x + w ≤ st.heights.length := bestPosition_le st.heights w x hb
      refine ⟨rfl, rfl, hxw, hfit, raiseColumns_length st.heights x w _, rfl, ?_, ?_, ?_⟩
      · intro c
        by_cases hin : x ≤ c ∧ c < x + w
        · by_cases hlen : c < st.heights.length
          · rw [getD_raiseColumns_in st.heights x w _ c hin.1 hin.2 hlen]
            exact Nat.le_trans (getD_le_maxHeights st.heights x w c hin.1 hin.2)
              (Nat.le_add_right _ h)
          · have h₁ : st.heights.getD c 0 = 0 :=
              List.getD_eq_default _ _ (Nat.le_of_not_lt hlen)
            rw [h₁]
            exact Nat.zero_le _
        · rw [getD_raiseColumns_out st.heights x w _ c (by omega)]
      · intro c hxc hcw
        have hlen : c < st.heights.length := by omega
        rw [getD_raiseColumns_in st.heights x w _ c hxc hcw hlen]
      · intro c hxc hcw
        by_cases hlen : c < st.heights.length
        · exact getD_le_maxHeights st.heights x w c hxc hcw
        · rw [List.getD_eq_default _ _ (Nat.le_of_not_lt hlen)]
          exact Nat.zero_le _
    · rw [if_neg hfit] at hp
      exact Option.noConfusion hp

/-- `rectsDisjoint` is symmetric. -/
theorem rectsDisjoint_symm : Symmetric rectsDisjoint := by
  intro a b hab px py hin
  exact hab px py ⟨hin.2, hin.1⟩

/-- A successful packing step preserves the packer invariant, extending the
placed list with the new rectangle. -/
theorem packerInv_step (st : RectPacker) (placed : List PackRect) (w h : Nat)
    (pr : PackRect) (st₂ : RectPacker)
    (hinv : PackerInv st placed) (hp : tryPack st w h = some (pr, st₂)) :
    PackerInv st₂ (placed ++ [pr]) := by
  obtain ⟨hw, hh, hxw, hyh, hlen, hah, hmono, hdom, hsit⟩ := tryPack_spec st w h pr st₂ hp
  constructor
  · intro r hr
    rcases List.mem_append.mp hr with hold | hnew
    · obtain ⟨hb₁, hb₂, hb₃⟩ := hinv.1 r hold
      refine ⟨by omega, by omega, ?_⟩
      intro c hc₁ hc₂
      exact Nat.le_trans (hb₃ c hc₁ hc₂) (hmono c)
    · obtain rfl : r = pr := List.mem_singleton.mp hnew
      refine ⟨by omega, by omega, ?_⟩
      intro c hc₁ hc₂
      have := hdom c hc₁ (by omega)
      omega
  · rw [List.pairwise_append]
    refine ⟨hinv.2, List.pairwise_singleton _ _, ?_⟩
    intro a ha b hb
    obtain rfl : b = pr := List.mem_singleton.mp hb
    intro px py hboth
    obtain ⟨hina, hinp⟩ := hboth
    obtain ⟨ha₁, ha₂, ha₃⟩ := hinv.1 a ha
    have hpx : px < st.heights.length := by
      obtain ⟨h₁, h₂, h₃, h₄⟩ := hina
      omega
    have hdom_a : a.y + a.h ≤ st.heights.getD px 0 :=
      ha₃ px hina.1 hina.2.1
    have hsit_p : st.heights.getD px 0 ≤ b.y :=
      hsit px hinp.1 (by obtain ⟨h₁, h₂, h₃, h₄⟩ := hinp; omega)
    obtain ⟨g₁, g₂, g₃, g₄⟩ := hina
    obtain ⟨f₁, f₂, f₃, f₄⟩ := hinp
    omega

/-- Appending an occupied glyph entry to a face appends its rectangle. -/
theorem faceRects_append_entry (f : AtlasFontFaceEntryInner) (e : AtlasGlyphEntry)
    (he : e._occupied ≠ 0) :
    faceRects { f with glyphs := f.glyphs ++ [e] } = faceRects f ++ [entryRect e.data] := by
  unfold faceRects
  rw [List.filterMap_append]
  simp [he]

/-- The rectangles of a face map split head/tail. -/
theorem occupiedRects_cons (f : AtlasFontFaceEntryInner) (fs : List AtlasFontFaceEntryInner) :
    occupiedRectsOfFaces (f :: fs) = faceRects f ++ occupiedRectsOfFaces fs := by
  simp [occupiedRectsOfFaces]

/-- Inserting an occupied glyph into the first matching face adds exactly
its rectangle to the recorded rectangles, up to order. -/
theorem occupiedRects_addGlyph (k : AtlasFontFaceKey) (e : AtlasGlyphEntry)
    (he : e._occupied ≠ 0) :
    ∀ faces : List AtlasFontFaceEntryInner,
      (∃ f ∈ faces, f.matchesKey k = true) →
      occupiedRectsOfFaces (addGlyphToFace faces k e)
        ~ occupiedRectsOfFaces faces ++ [entryRect e.data] := by
  intro faces
  induction faces with
  | nil =>
    intro h
    obtain ⟨f, hf, _⟩ := h
    simp at hf
  | cons g gs ih =>
    intro hex
    by_cases hm : g.matchesKey k = true
    · have hadd : addGlyphToFace (g :: gs) k e = { g with glyphs := g.glyphs ++ [e] } :: gs := by
        simp [addGlyphToFace, hm]
      rw [hadd, occupiedRects_cons, occupiedRects_cons, faceRects_append_entry g e he]
      simp only [List.append_assoc]
      exact List.Perm.append_left (faceRects g) List.perm_append_comm
    · have hm' : g.matchesKey k = false := by
        cases hg : g.matchesKey k
        · rfl
        · exact absurd hg hm
      have hadd : addGlyphToFace (g :: gs) k e = g :: addGlyphToFace gs k e := by
        simp [addGlyphToFace, hm']
      have hex' : ∃ f ∈ gs, f.matchesKey k = true := by
        obtain ⟨f, hf, hfk⟩ := hex
        rcases List.mem_cons.mp hf with rfl | hmem
        · rw [hm'] at hfk
          exact absurd hfk (by simp)
        · exact ⟨f, hmem, hfk⟩
      rw [hadd, occupiedRects_cons, occupiedRects_cons]
      simp only [List.append_assoc]
      exact List.Perm.append_left (faceRects g) (ih hex')

/-- Creating a face entry records no rectangle. -/
theorem occupiedRects_ensureFace (faces : List AtlasFontFaceEntryInner) (k : AtlasFontFaceKey) :
    occupiedRectsOfFaces (ensureFace faces k) = occupiedRectsOfFaces faces := by
  unfold ensureFace
  split
  · rfl
  · unfold occupiedRectsOfFaces
    rw [List.flatMap_append]
    simp [faceRects]

/-- After `ensureFace` some face matches the key. -/
theorem ensureFace_exists (faces : List AtlasFontFaceEntryInner) (k : AtlasFontFaceKey) :
    ∃ f ∈ ensureFace faces k, f.matchesKey k = true := by
  unfold ensureFace
  by_cases h : faces.any (fun f => f.matchesKey k) = true
  · rw [if_pos h]
    obtain ⟨f, hf, hfk⟩ := List.any_eq_true.mp h
    exact ⟨f, hf, hfk⟩
  · rw [if_neg h]
    exact ⟨⟨k.fontFace, k.lineRendition, [], []⟩,
      List.mem_append_right _ (List.mem_singleton_self _), fresh_inner_matches k⟩

/-- Running any sequence of glyph resolutions preserves the packer
invariant: the recorded glyph rectangles stay a permutation of a placed
list satisfying `PackerInv`, and the atlas extent never changes. -/
theorem resolveAll_inv (raster : AtlasFontFaceKey → Nat → RasterResult)
    (reqs : List (AtlasFontFaceKey × Nat)) :
    ∀ (s : GlyphAtlasState) (placed : List PackRect),
      PackerInv s.rectPacker placed →
      occupiedGlyphRects s ~ placed →
      ∃ placed₂,
        PackerInv (resolveAll raster s reqs).rectPacker placed₂
        ∧ occupiedGlyphRects (resolveAll raster s reqs) ~ placed₂
        ∧ (resolveAll raster s reqs).rectPacker.heights.length
            = s.rectPacker.heights.length
        ∧ (resolveAll raster s reqs).rectPacker.atlasHeight
            = s.rectPacker.atlasHeight := by
  induction reqs with
  | nil =>
    intro s placed hinv hperm
    exact ⟨placed, hinv, hperm, rfl, rfl⟩
  | cons req rest ih =>
    obtain ⟨k, gi⟩ := req
    intro s placed hinv hperm
    cases hl : lookupGlyph s k gi with
    | some d =>
      have hred : resolveAll raster s ((k, gi) :: rest) = resolveAll raster s rest := by
        simp only [resolveAll, resolveGlyph_hit raster s k gi d hl]
      rw [hred]
      exact ih s placed hinv hperm
    | none =>
      cases hp : tryPack s.rectPacker (raster k gi).size.1 (raster k gi).size.2 with
      | none =>
        have hred : resolveAll raster s ((k, gi) :: rest) = resolveAll raster s rest := by
          simp only [resolveAll, resolveGlyph_miss_full raster s k gi hl hp]
        rw [hred]
        exact ih s placed hinv hperm
      | some prpacker =>
        obtain ⟨pr, packer⟩ := prpacker
        have hspec := tryPack_spec s.rectPacker (raster k gi).size.1 (raster k gi).size.2
          pr packer hp
        have hred : resolveAll raster s ((k, gi) :: rest)
            = resolveAll raster
                ⟨addGlyphToFace (ensureFace s.glyphAtlasMap k) k
                    ⟨gi, 1, ⟨(raster k gi).shadingType, 0, (raster k gi).offset,
                      (raster k gi).size, (pr.x, pr.y)⟩⟩, packer⟩ rest := by
          simp only [resolveAll, resolveGlyph_miss_packed raster s k gi pr packer hl hp]
        rw [hred]
        have hstep : PackerInv packer (placed ++ [pr]) :=
          packerInv_step s.rectPacker placed _ _ pr packer hinv hp
        have hrect : entryRect (⟨(raster k gi).shadingType, 0, (raster k gi).offset,
            (raster k gi).size, (pr.x, pr.y)⟩ : AtlasGlyphEntryData) = pr := by
          obtain ⟨hw, hh, _⟩ := hspec
          cases pr with
          | mk px py pw ph =>
            simp only [entryRect]
            dsimp only at hw hh ⊢
            rw [← hw, ← hh]
        have hperm₂ : occupiedGlyphRects
            (⟨addGlyphToFace (ensureFace s.glyphAtlasMap k) k
                ⟨gi, 1, ⟨(raster k gi).shadingType, 0, (raster k gi).offset,
                  (raster k gi).size, (pr.x, pr.y)⟩⟩, packer⟩ : GlyphAtlasState)
            ~ placed ++ [pr] := by
          calc occupiedRectsOfFaces (addGlyphToFace (ensureFace s.glyphAtlasMap k) k
                ⟨gi, 1, ⟨(raster k gi).shadingType, 0, (raster k gi).offset,
                  (raster k gi).size, (pr.x, pr.y)⟩⟩)
              ~ occupiedRectsOfFaces (ensureFace s.glyphAtlasMap k)
                  ++ [entryRect ⟨(raster k gi).shadingType, 0, (raster k gi).offset,
                        (raster k gi).size, (pr.x, pr.y)⟩] :=
                occupiedRects_addGlyph k _ (by simp) _ (ensureFace_exists s.glyphAtlasMap k)
            _ = occupiedGlyphRects s ++ [pr] := by
                rw [occupiedRects_ensureFace, hrect]
                rfl
            _ ~ placed ++ [pr] := List.Perm.append_right [pr] hperm
        obtain ⟨placed₂, h₁, h₂, h₃, h₄⟩ := ih _ (placed ++ [pr]) hstep hperm₂
        refine ⟨placed₂, h₁, h₂, ?_, ?_⟩
        · rw [h₃]
          exact hspec.2.2.2.2.1
        · rw [h₄]
          exact hspec.2.2.2.2.2.1

/-- Claim C1: for every set of glyphs successfully placed in the atlas
since the last reset (any resolution sequence from a fresh atlas), the
`texcoord`/`size` rectangles recorded in their `AtlasGlyphEntryData` are
pairwise non-overlapping and each lies fully within the atlas
width/height bounds. -/
theorem glyphAtlas_rects_disjoint_in_bounds :
    ∀ (raster : AtlasFontFaceKey → Nat → RasterResult) (width height : Nat)
      (reqs : List (AtlasFontFaceKey × Nat)),
      (∀ r ∈ occupiedGlyphRects (resolveAll raster (initGlyphAtlasState width height) reqs),
          rectInBounds width height r)
      ∧ List.Pairwise rectsDisjoint
          (occupiedGlyphRects (resolveAll raster (initGlyphAtlasState width height) reqs)) := by
  intro raster width height reqs
  have hinit : PackerInv (initGlyphAtlasState width height).rectPacker [] := by
    exact ⟨by intro r hr; simp at hr, List.Pairwise.nil⟩
  have hperm₀ : occupiedGlyphRects (initGlyphAtlasState width height) ~ [] := by
    simp [occupiedGlyphRects, initGlyphAtlasState, occupiedRectsOfFaces]
  obtain ⟨placed₂, hinv, hperm, hlen, hah⟩ :=
    resolveAll_inv raster reqs (initGlyphAtlasState width height) [] hinit hperm₀
  have hwidth : (initGlyphAtlasState width height).rectPacker.heights.length = width := by
    simp [initGlyphAtlasState, stbrpInit]
  have hheight : (initGlyphAtlasState width height).rectPacker.atlasHeight = height := rfl
  constructor
  · intro r hr
    have hr₂ : r ∈ placed₂ := hperm.mem_iff.mp hr
    obtain ⟨hb₁, hb₂, _⟩ := hinv.1 r hr₂
    rw [hlen, hwidth] at hb₁
    rw [hah, hheight] at hb₂
    exact ⟨hb₁, hb₂⟩
  · exact (hperm.pairwise_iff (fun h => rectsDisjoint_symm h)).mpr hinv.2

/-- Witness for C1: resolving one 1×1 glyph over a fresh 4×4 atlas records
the rectangle at (0, 0), which lies within bounds. -/
theorem glyphAtlas_rects_witness :
    rectInBounds 4 4 ⟨0, 0, 1, 1⟩ :=
  (glyphAtlas_rects_disjoint_in_bounds rasterEx 4 4 [(keyEx, 1)]).1 ⟨0, 0, 1, 1⟩ (by decide)

/-- Claim C9: the cursor rectangle list never holds more than 6 rectangles
(the worst case being a wide double-box cursor over two differently
colored backgrounds), and the stored cursor bounding rect equals the union
bounding box of the rectangles in the list. -/
theorem cursorRects_bounded_and_bbox :
    ∀ (ct : CursorType) (t : Nat) (x0 y0 : Int) (hgt fg : Nat) (runs : List (Nat × Nat)),
      runs ≠ [] → runs.length ≤ 2 → 0 < t → t ≤ hgt →
      (∀ rn ∈ runs, t ≤ rn.2) →
      (drawCursorBackgroundModel ct t x0 y0 hgt fg runs).1.length ≤ 6
      ∧ boundingRectOf (drawCursorBackgroundModel ct t x0 y0 hgt fg runs).1
          = some (drawCursorBackgroundModel ct t x0 y0 hgt fg runs).2 := by
  intro ct t x0 y0 hgt fg runs hne hlen ht hth hrun
  rcases runs with _ | ⟨⟨c₁, w₁⟩, rest₁⟩
  · exact absurd rfl hne
  rcases rest₁ with _ | ⟨⟨c₂, w₂⟩, rest₂⟩
  · have hw₁ : t ≤ w₁ := hrun (c₁, w₁) (by simp)
    cases ct with
    | filledBox =>
      refine ⟨by simp [drawCursorBackgroundModel, filledBoxRects], ?_⟩
      simp only [drawCursorBackgroundModel, filledBoxRects, boundingRectOf,
        cursorRectBounds, rectUnion, runsWidth, List.foldl_cons, List.foldl_nil,
        List.map_cons, List.map_nil, List.sum_cons, List.sum_nil, Option.some.injEq,
        TilRect.mk.injEq, Nat.add_zero, and_true, true_and] <;>
        omega
    | emptyBox =>
      refine ⟨by simp [drawCursorBackgroundModel, emptyBoxRects, runLineRects], ?_⟩
      simp only [drawCursorBackgroundModel, emptyBoxRects, runLineRects, boundingRectOf,
        cursorRectBounds, rectUnion, runsWidth, firstRunColor, lastRunColor,
        List.foldl_cons, List.foldl_nil, List.map_cons, List.map_nil, List.sum_cons,
        List.sum_nil, List.cons_append, List.nil_append, Option.some.injEq,
        TilRect.mk.injEq, Nat.add_zero, and_true, true_and] <;>
        omega
  rcases rest₂ with _ | ⟨r₃, rest₃⟩
  · have hw₁ : t ≤ w₁ := hrun (c₁, w₁) (by simp)
    have hw₂ : t ≤ w₂ := hrun (c₂, w₂) (by simp)
    cases ct with
    | filledBox =>
      refine ⟨by simp [drawCursorBackgroundModel, filledBoxRects], ?_⟩
      simp only [drawCursorBackgroundModel, filledBoxRects, boundingRectOf,
        cursorRectBounds, rectUnion, runsWidth, List.foldl_cons, List.foldl_nil,
        List.map_cons, List.map_nil, List.sum_cons, List.sum_nil, Option.some.injEq,
        TilRect.mk.injEq, Nat.add_zero, and_true, true_and] <;>
        omega
    | emptyBox =>
      refine ⟨by simp [drawCursorBackgroundModel, emptyBoxRects, runLineRects], ?_⟩
      simp only [drawCursorBackgroundModel, emptyBoxRects, runLineRects, boundingRectOf,
        cursorRectBounds, rectUnion, runsWidth, firstRunColor, lastRunColor,
        List.foldl_cons, List.foldl_nil, List.map_cons, List.map_nil, List.sum_cons,
        List.sum_nil, List.cons_append, List.nil_append, Option.some.injEq,
        TilRect.mk.injEq, Nat.add_zero, and_true, true_and] <;>
        omega
  · simp at hlen

/-- Witness for C9: a double-box cursor of line thickness 1 over a wide
glyph with two differently colored halves (two runs of width 8 each)
produces at most 6 rectangles whose union bounding box is the full cursor
area. -/
theorem cursorRects_bounded_and_bbox_witness :
    (drawCursorBackgroundModel .emptyBox 1 0 0 10 9 [(3, 8), (4, 8)]).1.length ≤ 6
    ∧ boundingRectOf (drawCursorBackgroundModel .emptyBox 1 0 0 10 9 [(3, 8), (4, 8)]).1
        = some (drawCursorBackgroundModel .emptyBox 1 0 0 10 9 [(3, 8), (4, 8)]).2 :=
  cursorRects_bounded_and_bbox .emptyBox 1 0 0 10 9 [(3, 8), (4, 8)]
    (by decide) (by decide) (by decide) (by decide) (by decide)

end BackendD3D
